import Mathlib

/-
  Verification of the virtual-memory subsystem of the ockernel repository.

  Shallow embedding of:
    - kernel/src/mm/paging.rs   (paging abstraction layer)
    - kernel/src/arch/i586/paging.rs  (x86 non-PAE page directories)

  Machine integers (u32/u64/usize) are modelled as Nat; wherever truncation
  or overflow matters in the source (u64 -> u32 conversions, 32-bit masks)
  the model performs the same check or mask explicitly.  Fallible Rust code
  returning Result is modelled with Except / explicit result inductives;
  `panic!`/`assert!`/`expect` paths are modelled as a distinct `panic`
  outcome or as `Option` (none = panic) so that no panic is silently turned
  into a value.
-/

namespace Ockernel

/-- Page size of the i586 architecture (arch::i586::PAGE_SIZE, 4096). -/
def PAGE_SIZE : Nat := 4096

/-- Modelled from the spec: the compile-time kernel split `K`
(`arch::i586::KERNEL_PAGE_DIR_SPLIT`, whose defining module is not under
src/).  The spec describes a compile-time split above which the kernel half
lives, and the ibmpc platform links the kernel at `LINKED_BASE = 0xe0000000`
(platform/ibmpc/mod.rs line 33); the split is that base address. -/
def KERNEL_PAGE_DIR_SPLIT : Nat := 0xe0000000

/-- mm/paging.rs `PagingError`: error sum type of the paging layer. -/
inductive PagingError where
  | NoAvailableFrames
  | FrameUnused
  | FrameInUse
  | AllocError
  | BadFrame
  | BadAddress
deriving DecidableEq

/-- mm/paging.rs `PageFrame`: hardware agnostic form of a page frame.
`addr` is the 64-bit physical address (`u64`), the rest are the flag
booleans in source order. -/
structure PageFrame where
  addr : Nat
  present : Bool
  user_mode : Bool
  writable : Bool
  copy_on_write : Bool
  executable : Bool
  referenced : Bool
  shared : Bool
deriving DecidableEq

/-- `PageFrame::default()`: zero address, all flags false. -/
def PageFrame.default : PageFrame :=
  ⟨0, false, false, false, false, false, false, false⟩

/-- The `PageDirectory` trait's provided `virt_to_phys` (mm/paging.rs lines
128-135): mask the address down to a page boundary, look the page up, and
or the sub-page offset back in.  The source computes the page base with
`virt & !(page_size-1)` and the offset with `virt & (page_size-1)`; for the
power-of-two page sizes used these equal `virt / ps * ps` and `virt % ps`. -/
def virtToPhysDefault (get : Nat → Option PageFrame) (ps virt : Nat) : Option Nat :=
  let page_addr := virt / ps * ps
  let offset := virt % ps
  (get page_addr).map (fun page => page.addr ||| offset)

/-- Pointwise update of an abstract directory mapping: the effect of a
successful `set_page(a, v)` on a directory viewed through `get_page`. -/
def updDir (dir : Nat → Option PageFrame) (a : Nat) (v : Option PageFrame) :
    Nat → Option PageFrame :=
  fun x => if x = a then v else dir x

/-- Modelled from the spec: `util::array::BitSet` (its defining module is
not under src/).  The spec describes an ordered bit sequence with `set`,
`clear`, `first_unset` scanning from the lowest index. -/
structure BitSet where
  bits : List Bool
deriving DecidableEq

/-- Modelled from the spec: `BitSet::set(i)` sets bit `i`. -/
def BitSet.set (b : BitSet) (i : Nat) : BitSet := ⟨b.bits.set i true⟩

/-- Modelled from the spec: `BitSet::clear(i)` clears bit `i`. -/
def BitSet.clear (b : BitSet) (i : Nat) : BitSet := ⟨b.bits.set i false⟩

/-- Modelled from the spec: `BitSet::first_unset()` returns the lowest
index of an unset bit. -/
def BitSet.first_unset (b : BitSet) : Option Nat :=
  b.bits.findIdx? (fun x => !x)

/-- mm/paging.rs `PageManager`: frame bitset plus page size. -/
structure PageManager where
  frame_set : BitSet
  page_size : Nat
deriving DecidableEq

/-- mm/paging.rs `PageManager::alloc_frame` (lines 388-396): take the first
unset bit, set it, return `idx * page_size`. -/
def PageManager.alloc_frame (m : PageManager) :
    Except PagingError (Nat × PageManager) :=
  match m.frame_set.first_unset with
  | some idx => .ok (idx * m.page_size, { m with frame_set := m.frame_set.set idx })
  | none => .error .NoAvailableFrames

/-- mm/paging.rs `PageManager::set_frame_free` (lines 462-466).  The
alignment `assert!` is modelled as `none` (= panic). -/
def PageManager.set_frame_free (m : PageManager) (a : Nat) : Option PageManager :=
  if a % m.page_size = 0 then
    some { m with frame_set := m.frame_set.clear (a / m.page_size) }
  else none

/-- Lookup in the `BTreeMap<u64, PageReference>` of the reference counter,
modelled as an association list from physical address to count. -/
def refsGet : List (Nat × Nat) → Nat → Option Nat
  | [], _ => none
  | (p, c) :: rest, phys => if p = phys then some c else refsGet rest phys

/-- Replace the count stored for `phys` (the effect of `get_mut` plus an
assignment on the map). -/
def refsSet : List (Nat × Nat) → Nat → Nat → List (Nat × Nat)
  | [], _, _ => []
  | (p, c) :: rest, phys, v =>
      if p = phys then (p, v) :: rest else (p, c) :: refsSet rest phys v

/-- Remove the entry for `phys` from the map (`BTreeMap::remove`). -/
def refsRemove : List (Nat × Nat) → Nat → List (Nat × Nat)
  | [], _ => []
  | (p, c) :: rest, phys => if p = phys then rest else (p, c) :: refsRemove rest phys

/-- mm/paging.rs `PageRefCounter::get_references_for` (lines 683-689):
count stored in the map, 0 when absent. -/
def get_references_for (refs : List (Nat × Nat)) (phys : Nat) : Nat :=
  (refsGet refs phys).getD 0

/-- mm/paging.rs `PageRefCounter::remove_reference_no_free` (lines
653-659): decrement the stored count only when it is above 1; otherwise do
nothing.  Never touches the page manager. -/
def remove_reference_no_free (refs : List (Nat × Nat)) (phys : Nat) :
    List (Nat × Nat) :=
  match refsGet refs phys with
  | some c => if 1 < c then refsSet refs phys (c - 1) else refs
  | none => refs

/-- mm/paging.rs `PageRefCounter::remove_reference` (lines 661-674):
decrement while above 1; at 1 remove the entry and free the frame through
the page manager; when absent free the frame immediately. -/
def remove_reference (refs : List (Nat × Nat)) (m : PageManager) (phys : Nat) :
    Option (List (Nat × Nat) × PageManager) :=
  match refsGet refs phys with
  | some c =>
      if 1 < c then some (refsSet refs phys (c - 1), m)
      else (m.set_frame_free phys).map (fun m1 => (refsRemove refs phys, m1))
  | none => (m.set_frame_free phys).map (fun m1 => (refs, m1))

/-- mm/paging.rs `free_page` (lines 762-772).  `sharedFree` models
`shared::free_shared_reference` (shared-memory cleanup, outside the
embedded source): it reports whether the shared path handled the frame. -/
def free_page (sharedFree : Nat → Bool) (refs : List (Nat × Nat))
    (m : PageManager) (page : PageFrame) :
    Option (List (Nat × Nat) × PageManager) :=
  if page.shared then
    if sharedFree page.addr then some (refs, m)
    else remove_reference refs m page.addr
  else if page.referenced then remove_reference refs m page.addr
  else (m.set_frame_free page.addr).map (fun m1 => (refs, m1))

/-! Loop bodies of the generic scanning helpers. -/

/-- Loop of mm/paging.rs `validate_region` (lines 899-903): check `n`
successive pages starting at `a` for presence. -/
def presentRange (g : Nat → Option PageFrame) (ps : Nat) : Nat → Nat → Bool
  | _, 0 => true
  | a, n + 1 => (g a).isSome && presentRange g ps (a + ps) n

/-- mm/paging.rs `validate_region` (lines 894-906): round `start` down to a
page boundary, compute `end = ((start+len)/P)*P + P` with the rebound
`start`, and require every page in `[start, end)` to be present.  The
iteration count of `(start..end).step_by(ps)` is `ceil((end-start)/ps)`. -/
def validate_region (g : Nat → Option PageFrame) (start len : Nat) : Bool :=
  let ps := PAGE_SIZE
  let start1 := start / ps * ps
  let e := (start1 + len) / ps * ps + ps
  presentRange g ps start1 ((e - start1 + ps - 1) / ps)

/-- Loop of mm/paging.rs `find_hole` (lines 344-358).  `n` is the number of
remaining iterations, `addr` the current address, the last argument the
running `hole_start`.  The source returns `hole_start` as soon as the
current unused address is at least `size` past it; an in-use address resets
`hole_start`. -/
def findHoleLoop (unused : Nat → Bool) (size ps start : Nat) :
    Nat → Nat → Option Nat → Option Nat
  | 0, _, _ => none
  | n + 1, addr, hole =>
    if unused addr then
      match hole with
      | some h =>
          if size ≤ addr - h then some h
          else findHoleLoop unused size ps start n (addr + ps) (some h)
      | none =>
          if start ≤ addr then findHoleLoop unused size ps start n (addr + ps) (some addr)
          else findHoleLoop unused size ps start n (addr + ps) none
    else findHoleLoop unused size ps start n (addr + ps) none

/-- mm/paging.rs `find_hole` (lines 334-361): the requested size is rounded
with `(size / ps) * ps + ps` and the directory is scanned from `start` to
`e` at stride `ps`.  The `assert!`s require `start` and `e` page aligned;
the theorems carry those as hypotheses. -/
def find_hole (unused : Nat → Bool) (ps start e size : Nat) : Option Nat :=
  let size1 := size / ps * ps + ps
  findHoleLoop unused size1 ps start ((e - start) / ps) start none

/-- Reference scanner for the `find_hole` characterisation: first address
of the form `a + i * ps`, `i < n`, satisfying `q`. -/
def firstGrid (q : Nat → Bool) (ps : Nat) : Nat → Nat → Option Nat
  | _, 0 => none
  | a, n + 1 => if q a then some a else firstGrid q ps (a + ps) n

/-- The property `find_hole` actually establishes at a returned address
`a` (size already rounded): the `size/ps + 1` pages `a, a+ps, ...,
a+(size/ps)*ps` are all unused and the last of them is below `e`. -/
def holeGood (unused : Nat → Bool) (size ps e a : Nat) : Bool :=
  decide (a + size < e) && (List.range (size / ps + 1)).all (fun k => unused (a + k * ps))

/-! The x86 non-PAE directory model (arch/i586/paging.rs).  `u32` page
table entries are modelled as Nat with the source's 32-bit masks. -/

/-- arch/i586/paging.rs `PageTableFlags` bit values. -/
def PTF_Present : Nat := 1
def PTF_ReadWrite : Nat := 2
def PTF_UserSupervisor : Nat := 4
def PTF_Global : Nat := 256
def PTF_CopyOnWrite : Nat := 512
def PTF_Referenced : Nat := 1024
def PTF_Shared : Nat := 2048

/-- arch/i586/paging.rs `PageDirFlags` bit values used by
`add_page_table`. -/
def PDF_Present : Nat := 1
def PDF_ReadWrite : Nat := 2
def PDF_UserSupervisor : Nat := 4
def PDF_Global : Nat := 256

/-- `PageTableEntry::new(addr, flags)`: 20-bit address part or the low
12 flag bits. -/
def PageTableEntry.new (addr flags : Nat) : Nat :=
  (addr &&& 0xfffff000) ||| (flags &&& 0xfff)

/-- `PageTableEntry::is_unused`: the entry is the all-zero word. -/
def PageTableEntry.is_unused (e : Nat) : Bool := e = 0

/-- `PageTableEntry::get_address`. -/
def PageTableEntry.get_address (e : Nat) : Nat := e &&& 0xfffff000

/-- `PageTableEntry::get_flags`. -/
def PageTableEntry.get_flags (e : Nat) : Nat := e &&& 0xfff

/-- `PageTableEntry::set_flags`. -/
def PageTableEntry.set_flags (e flags : Nat) : Nat :=
  (e &&& 0xfffff000) ||| (flags &&& 0xfff)

/-- `PageDirEntry::new(addr, flags)` (same layout as a table entry). -/
def PageDirEntry.new (addr flags : Nat) : Nat :=
  (addr &&& 0xfffff000) ||| (flags &&& 0xfff)

/-- `impl From<PageTableEntry> for PageFrame` (lines 64-78): decode an
entry into the hardware-agnostic frame; `executable` is always true. -/
def entryToPageFrame (e : Nat) : PageFrame :=
  let flags := PageTableEntry.get_flags e
  { addr := PageTableEntry.get_address e
    present := flags &&& PTF_Present != 0
    user_mode := flags &&& PTF_UserSupervisor != 0
    writable := flags &&& PTF_ReadWrite != 0
    copy_on_write := flags &&& PTF_CopyOnWrite != 0
    executable := true
    referenced := flags &&& PTF_Referenced != 0
    shared := flags &&& PTF_Shared != 0 }

/-- `impl TryFrom<PageFrame> for PageTableEntry` (lines 80-112): encode a
frame; fails (`BadFrame` at the caller) when the physical address does not
fit in a `u32`. -/
def pageFrameToEntry (f : PageFrame) : Option Nat :=
  let flags :=
    (if f.present then PTF_Present else 0) |||
    (if f.user_mode then PTF_UserSupervisor else 0) |||
    (if f.writable then PTF_ReadWrite else 0) |||
    (if f.copy_on_write then PTF_CopyOnWrite else 0) |||
    (if f.referenced then PTF_Referenced else 0) |||
    (if f.shared then PTF_Shared else 0)
  if f.addr < 2 ^ 32 then some (PageTableEntry.new f.addr flags) else none

/-- arch/i586/paging.rs `TableRef`: a page table (entry index to `u32`
entry) plus its ownership flag. -/
structure TableRef where
  table : Nat → Nat
  can_free : Bool

/-- arch/i586/paging.rs `PageDir`: the slot array `tables`, the physical
entry array `tables_physical`, its physical address, and the top-level
ownership flag. -/
structure PageDir where
  tables : Nat → Option TableRef
  tables_physical : Nat → Nat
  tables_physical_addr : Nat
  can_free : Bool

/-- Outcome of an operation on a `&mut` directory: success, a surfaced
error (with the directory as the operation left it), or a panic
(`assert!` / `expect` / `unwrap` failure). -/
inductive SPResult (σ : Type) where
  | ok (s : σ)
  | err (e : PagingError) (s : σ)
  | panic
deriving DecidableEq

/-- Whether an `SPResult` is a success. -/
def SPResult.isOk {σ : Type} : SPResult σ → Bool
  | .ok _ => true
  | _ => false

/-- Environment of one `set_page` call: what `alloc_zeroed` returns for a
new page table (`none` = null pointer), and the `virt_to_phys` view of
`CURRENT_PAGE_DIR` used to find the new table's physical address. -/
structure SetPageEnv where
  allocTable : Option Nat
  curV2P : Nat → Option Nat

/-- arch/i586/paging.rs `PageDir::add_page_table` (lines 529-549): store
the physical entry (with the Global directory flag for kernel-half
indices) and the table reference at index `addr >> 22`. -/
def PageDir.add_page_table (d : PageDir) (addr : Nat) (table : Nat → Nat)
    (physical_addr : Nat) (can_free : Bool) : PageDir :=
  let idx := addr >>> 22
  let pde :=
    if KERNEL_PAGE_DIR_SPLIT / PAGE_SIZE / 1024 ≤ idx then
      PageDirEntry.new physical_addr (PDF_Present ||| PDF_ReadWrite ||| PDF_UserSupervisor ||| PDF_Global)
    else
      PageDirEntry.new physical_addr (PDF_Present ||| PDF_ReadWrite ||| PDF_UserSupervisor)
  { d with
    tables_physical := fun i => if i = idx then pde else d.tables_physical i
    tables := fun i => if i = idx then some ⟨table, can_free⟩ else d.tables i }

/-- arch/i586/paging.rs `PageDir::get_page` (lines 597-613). -/
def PageDir.get_page (d : PageDir) (addr : Nat) : Option PageFrame :=
  let a := addr / PAGE_SIZE
  let table_idx := a / 1024
  match d.tables table_idx with
  | some tr =>
      let entry := tr.table (a % 1024)
      if PageTableEntry.is_unused entry then none else some (entryToPageFrame entry)
  | none => none

/-- arch/i586/paging.rs `PageDir::is_unused` (lines 615-625). -/
def PageDir.is_unused (d : PageDir) (addr : Nat) : Bool :=
  let a := addr / PAGE_SIZE
  let table_idx := a / 1024
  match d.tables table_idx with
  | some tr => PageTableEntry.is_unused (tr.table (a % 1024))
  | none => true

/-- arch/i586/paging.rs `PageDir::virt_to_phys` (lines 627-643): note that
the returned value is `entry.get_address()` only, without the sub-page
offset of `virt`. -/
def PageDir.virt_to_phys (d : PageDir) (virt : Nat) : Option Nat :=
  let v := virt / PAGE_SIZE
  let table_idx := v / 1024
  match d.tables table_idx with
  | some tr =>
      let entry := tr.table (v % 1024)
      if PageTableEntry.is_unused entry then none
      else some (PageTableEntry.get_address entry)
  | none => none

/-- arch/i586/paging.rs `PageDir::set_page` (lines 645-699).  `addr` is
divided by the page size first; a missing page table is allocated (zeroed)
through the environment and registered with `add_page_table`; the entry is
encoded from the frame (`BadFrame` when the address exceeds `u32`); the
kernel-half test `addr >= KERNEL_PAGE_DIR_SPLIT` is performed on the
already divided `addr`, exactly as in the source; finally the entry is
stored.  The TLB flush of the current directory has no modelled effect. -/
def PageDir.set_page (env : SetPageEnv) (d : PageDir) (addr : Nat)
    (page : Option PageFrame) : SPResult PageDir :=
  let a := addr / PAGE_SIZE
  let table_idx := a / 1024
  let afterTable : SPResult PageDir :=
    match d.tables table_idx with
    | some _ => .ok d
    | none =>
        match env.allocTable with
        | none => .err .AllocError d
        | some ptr =>
            if ptr < KERNEL_PAGE_DIR_SPLIT then .panic
            else
              match env.curV2P ptr with
              | none => .panic
              | some phys =>
                  if a * PAGE_SIZE < 2 ^ 32 then
                    if phys < 2 ^ 32 then
                      .ok (d.add_page_table (a * PAGE_SIZE) (fun _ => 0) phys true)
                    else .panic
                  else .panic
  match afterTable with
  | .panic => .panic
  | .err e d1 => .err e d1
  | .ok d1 =>
      let entryOpt : Option Nat :=
        match page with
        | some p => pageFrameToEntry p
        | none => some 0
      match entryOpt with
      | none => .err .BadFrame d1
      | some entry0 =>
          let entry :=
            if KERNEL_PAGE_DIR_SPLIT ≤ a then
              PageTableEntry.set_flags entry0 (PageTableEntry.get_flags entry0 ||| PTF_Global)
            else entry0
          match d1.tables table_idx with
          | none => .panic
          | some tr =>
              .ok { d1 with
                    tables := fun i =>
                      if i = table_idx then
                        some ⟨fun j => if j = a % 1024 then entry else tr.table j, tr.can_free⟩
                      else d1.tables i }

/-- Projection for theorem statements: `get_page` of the directory a
successful `set_page` produced. -/
def spGetPage (r : SPResult PageDir) (a : Nat) : Option (Option PageFrame) :=
  match r with
  | .ok d => some (d.get_page a)
  | _ => none

/-- Projection for theorem statements: `is_unused` of the directory a
successful `set_page` produced. -/
def spIsUnused (r : SPResult PageDir) (a : Nat) : Option Bool :=
  match r with
  | .ok d => some (d.is_unused a)
  | _ => none

/-- Projection for theorem statements: the raw table entry stored at
address `a` in the directory a successful `set_page` produced. -/
def setPageEntry (r : SPResult PageDir) (a : Nat) : Option Nat :=
  match r with
  | .ok d => (d.tables (a / PAGE_SIZE / 1024)).map (fun tr => tr.table (a / PAGE_SIZE % 1024))
  | _ => none

/-! The generic page-manager operations over an arbitrary `PageDirectory`
implementation (the Rust functions are generic over `T: PageDirectory`). -/

/-- The capabilities of a directory implementation used by the generic
manager code: its page size, `is_unused`, and a fallible `set_page` that
also reports the directory state an error left behind. -/
structure DirOps (σ : Type) where
  pageSize : Nat
  is_unused : σ → Nat → Bool
  set_page : σ → Nat → Option PageFrame → SPResult σ

/-- The `DirOps` view of the modelled i586 directory. -/
def i586Ops (env : SetPageEnv) : DirOps PageDir :=
  { pageSize := PAGE_SIZE
    is_unused := PageDir.is_unused
    set_page := fun d a p => PageDir.set_page env d a p }

/-- The frame `alloc_frame_at` writes (mm/paging.rs lines 420-427). -/
def afFrame (phys : Nat) (user_mode writable executable : Bool) : PageFrame :=
  { addr := phys, present := true, user_mode := user_mode, writable := writable
    copy_on_write := false, executable := executable, referenced := false
    shared := false }

/-- mm/paging.rs `PageManager::alloc_frame_at` (lines 411-438): the three
`assert!`s are modelled as `panic`; when `addr` is unused the bitset bit
for `phys / page_size` is set FIRST and only then `set_page` runs, so an
error from `set_page` leaves the bit set. -/
def alloc_frame_at {σ : Type} (ops : DirOps σ) (m : PageManager) (d : σ)
    (addr phys : Nat) (user_mode writable executable : Bool) :
    SPResult (PageManager × σ) :=
  if ops.pageSize ≠ m.page_size then .panic
  else if addr % m.page_size ≠ 0 then .panic
  else if phys % m.page_size ≠ 0 then .panic
  else if ops.is_unused d addr then
    let idx := phys / m.page_size
    let m1 := { m with frame_set := m.frame_set.set idx }
    match ops.set_page d addr (some (afFrame phys user_mode writable executable)) with
    | .ok d1 => .ok (m1, d1)
    | .err e d1 => .err e (m1, d1)
    | .panic => .panic
  else .err .FrameInUse (m, d)

/-- Projection for theorem statements: the page manager inside an
`alloc_frame_at` outcome. -/
def afaManager {σ : Type} (r : SPResult (PageManager × σ)) : Option PageManager :=
  match r with
  | .ok (m, _) => some m
  | .err _ (m, _) => some m
  | .panic => none

/-! The copy-on-write engine (mm/paging.rs `copy_on_write`, lines
784-866).  The directory is the abstract `get_page` view with a total
`set_page` (the claims concern successful calls); `copied_area` is the
page-aligned heap buffer `alloc` returned; byte contents are not part of
any claim and are not modelled.  The result carries the surfaced value and
the final directory / reference-map / manager states; `none` is a panic
(from `set_frame_free`'s alignment assertion inside `free_page`). -/

/-- mm/paging.rs `copy_on_write`: with more than one reference, remap
`addr` to the physical frame backing `copied_area` (found through
`virt_to_phys`), back `copied_area` with a freshly allocated frame, and
release the old frame through `free_page`; on a failed allocation the
original entry is restored.  With at most one reference, only the
`writable` flag is turned on — `copy_on_write` and `referenced` are
deliberately kept. -/
def copy_on_write (sharedFree : Nat → Bool) (copied_area : Nat)
    (refs : List (Nat × Nat)) (m : PageManager)
    (dir : Nat → Option PageFrame) (addr : Nat) (page : PageFrame) :
    Option ((Except PagingError PageFrame) × (Nat → Option PageFrame) ×
            List (Nat × Nat) × PageManager) :=
  if 1 < get_references_for refs page.addr then
    let original := page
    match virtToPhysDefault dir PAGE_SIZE copied_area with
    | none => some (.error .BadAddress, dir, refs, m)
    | some p_x =>
        let page1 : PageFrame :=
          { page with addr := p_x, writable := true, copy_on_write := false, referenced := false }
        let dir1 := updDir dir addr (some page1)
        match m.alloc_frame with
        | .error e => some (.error e, updDir dir1 addr (some original), refs, m)
        | .ok (phys_addr, m1) =>
            let new_page : PageFrame :=
              { PageFrame.default with addr := phys_addr, present := true, writable := true }
            let dir2 := updDir dir1 copied_area (some new_page)
            (free_page sharedFree refs m1 original).map
              (fun rm => (.ok new_page, dir2, rm.1, rm.2))
  else
    let page1 := { page with writable := true }
    some (.ok page1, updDir dir addr (some page1), refs, m)

/-- Projection for theorem statements: whether a `copy_on_write` outcome
is a surfaced success. -/
def cowOk (r : Option ((Except PagingError PageFrame) × (Nat → Option PageFrame) ×
    List (Nat × Nat) × PageManager)) : Bool :=
  match r with
  | some (.ok _, _, _, _) => true
  | _ => false

/-- Projection for theorem statements: the final directory of a
`copy_on_write` outcome, applied at `x`. -/
def cowDirAt (r : Option ((Except PagingError PageFrame) × (Nat → Option PageFrame) ×
    List (Nat × Nat) × PageManager)) (x : Nat) : Option (Option PageFrame) :=
  match r with
  | some (_, dir, _, _) => some (dir x)
  | none => none

/-- Projection for theorem statements: the final reference count stored
for `p` in a `copy_on_write` outcome. -/
def cowRefsAt (r : Option ((Except PagingError PageFrame) × (Nat → Option PageFrame) ×
    List (Nat × Nat) × PageManager)) (p : Nat) : Option (Option Nat) :=
  match r with
  | some (_, _, refs, _) => some (refsGet refs p)
  | none => none

/-! The physical-address gathering phase of mm/paging.rs
`map_memory_from` (lines 154-214): align the bounds, then walk
`(start..=end).step_by(page_size)` — an INCLUSIVE range — reading each
page from the source directory, invoking `copy_on_write` (with the
original, un-stepped `addr`, as in the source) on CoW pages, and failing
with `BadAddress` at the first unmapped page.  `cas k` is the heap buffer
the `k`-th `copy_on_write` invocation receives; the `Vec` reservations are
modelled as succeeding.  The `assert!(end > start)` is `none` (panic). -/

/-- The loop over the inclusive page range of `map_memory_from`. -/
def gatherLoop (sharedFree : Nat → Bool) (cas : Nat → Nat) :
    Nat → Nat → Nat → List (Nat × Nat) → PageManager →
    (Nat → Option PageFrame) → Nat → List Nat →
    Option ((Except PagingError (List Nat)) × (Nat → Option PageFrame) ×
            List (Nat × Nat) × PageManager)
  | _, 0, _, refs, m, dir, _, acc => some (.ok acc.reverse, dir, refs, m)
  | cowCount, n + 1, i, refs, m, dir, origAddr, acc =>
    match dir i with
    | none => some (.error .BadAddress, dir, refs, m)
    | some page =>
        if !page.writable && page.copy_on_write && page.referenced then
          match copy_on_write sharedFree (cas cowCount) refs m dir origAddr page with
          | none => none
          | some (.error e, dir1, refs1, m1) => some (.error e, dir1, refs1, m1)
          | some (.ok newp, dir1, refs1, m1) =>
              gatherLoop sharedFree cas (cowCount + 1) n (i + PAGE_SIZE) refs1 m1 dir1 origAddr
                (newp.addr :: acc)
        else
          gatherLoop sharedFree cas cowCount n (i + PAGE_SIZE) refs m dir origAddr
            (page.addr :: acc)

/-- The address-gathering phase of `map_memory_from`: everything up to the
call into `map_memory`, returning the list of physical addresses the
buffer would be remapped to. -/
def map_memory_from_phys (sharedFree : Nat → Bool) (cas : Nat → Nat)
    (refs : List (Nat × Nat)) (m : PageManager)
    (dirFrom : Nat → Option PageFrame) (addr len : Nat) :
    Option ((Except PagingError (List Nat)) × (Nat → Option PageFrame) ×
            List (Nat × Nat) × PageManager) :=
  let ps := PAGE_SIZE
  let start0 := addr
  let end0 := addr + len
  if end0 ≤ start0 then none
  else
    let start := if start0 % ps ≠ 0 then start0 / ps * ps else start0
    let e := if end0 % ps ≠ 0 then end0 / ps * ps + (ps - 1) else end0
    gatherLoop sharedFree cas 0 ((e - start) / ps + 1) start refs m dirFrom addr []

/-! Theorems.  Helper lemmas first, then one theorem (plus witness or
counterexample) per claim. -/

/-- Updating the count stored for `p` is visible at `p` whenever `p` was
in the map. -/
theorem refsGet_refsSet_self (p v : Nat) :
    ∀ refs k, refsGet refs p = some k → refsGet (refsSet refs p v) p = some v := by
  intro refs
  induction refs with
  | nil => intro k h; simp [refsGet] at h
  | cons hd tl ih =>
      intro k h
      by_cases hp : hd.1 = p
      · simp [refsGet, refsSet, hp]
      · simp only [refsGet, refsSet, if_neg hp] at h ⊢
        exact ih k h

/-- Updating the count stored for `p` does not change other keys. -/
theorem refsGet_refsSet_ne (p v q : Nat) (hq : q ≠ p) :
    ∀ refs, refsGet (refsSet refs p v) q = refsGet refs q := by
  intro refs
  induction refs with
  | nil => rfl
  | cons hd tl ih =>
      obtain ⟨a, c⟩ := hd
      by_cases hp : a = p
      · subst hp
        simp only [refsSet, if_pos rfl, refsGet]
        rw [if_neg (Ne.symm hq), if_neg (Ne.symm hq)]
      · simp only [refsSet, if_neg hp, refsGet]
        by_cases hqa : a = q
        · rw [if_pos hqa, if_pos hqa]
        · rw [if_neg hqa, if_neg hqa]
          exact ih

/-- C9 (amended): for a physical address stored with count `k ≥ 1`,
`remove_reference_no_free` leaves the count at `k - 1` when `k ≥ 2` but at
`k` (not `k - 1 = 0`) when `k = 1`; other keys are untouched, and the
function never touches the page manager (it acts on the reference map
alone). -/
theorem remove_reference_no_free_count (refs : List (Nat × Nat)) (phys k q : Nat)
    (h : refsGet refs phys = some k) (h1 : 1 ≤ k) (hq : q ≠ phys) :
    refsGet (remove_reference_no_free refs phys) phys =
      some (if 2 ≤ k then k - 1 else k) ∧
    refsGet (remove_reference_no_free refs phys) q = refsGet refs q := by
  have hrw : remove_reference_no_free refs phys =
      if 1 < k then refsSet refs phys (k - 1) else refs := by
    unfold remove_reference_no_free
    rw [h]
  rw [hrw]
  by_cases h2 : 1 < k
  · rw [if_pos h2, if_pos (by omega : 2 ≤ k)]
    exact ⟨refsGet_refsSet_self phys (k - 1) refs k h, refsGet_refsSet_ne phys (k - 1) q hq refs⟩
  · rw [if_neg h2, if_neg (by omega : ¬2 ≤ k)]
    exact ⟨h, rfl⟩

/-- C9 witness: a concrete map with count 3 drops to 2 and leaves the
other key alone. -/
theorem remove_reference_no_free_count_witness :
    (refsGet [(0x1000, 3), (0x2000, 5)] 0x1000 = some 3 ∧ 1 ≤ 3 ∧ (0x2000 : Nat) ≠ 0x1000) ∧
    (refsGet (remove_reference_no_free [(0x1000, 3), (0x2000, 5)] 0x1000) 0x1000 =
        some (if 2 ≤ 3 then 3 - 1 else 3) ∧
      refsGet (remove_reference_no_free [(0x1000, 3), (0x2000, 5)] 0x1000) 0x2000 =
        refsGet [(0x1000, 3), (0x2000, 5)] 0x2000) :=
  ⟨⟨by decide, by decide, by decide⟩,
    remove_reference_no_free_count [(0x1000, 3), (0x2000, 5)] 0x1000 3 0x2000
      (by decide) (by decide) (by decide)⟩

/-- C9 counterexample: with count exactly 1 the claim predicts a count of
0 afterwards, but the source's `if reference.references > 1` guard leaves
the count at 1 and does nothing. -/
theorem remove_reference_no_free_at_one :
    refsGet (remove_reference_no_free [(0x1000, 1)] 0x1000) 0x1000 = some 1 := by
  decide

/-- `presentRange` checks exactly the `n` pages `a, a+ps, ..., a+(n-1)ps`. -/
theorem presentRange_iff (g : Nat → Option PageFrame) (ps : Nat) :
    ∀ n a, presentRange g ps a n = true ↔
      ∀ k, k < n → (g (a + k * ps)).isSome = true := by
  intro n
  induction n with
  | zero => intro a; simp [presentRange]
  | succ n ih =>
      intro a
      simp only [presentRange, Bool.and_eq_true, ih (a + ps)]
      constructor
      · rintro ⟨h0, hrest⟩ k hk
        match k with
        | 0 => simpa using h0
        | j + 1 =>
            have := hrest j (by omega)
            simpa [Nat.add_mul, Nat.add_comm, Nat.add_assoc, Nat.add_left_comm] using this
      · intro hall
        refine ⟨by simpa using hall 0 (by omega), fun j hj => ?_⟩
        have := hall (j + 1) (by omega)
        simpa [Nat.add_mul, Nat.add_comm, Nat.add_assoc, Nat.add_left_comm] using this

/-- C8 (amended): `validate_region(dir, start, len)` is true iff the
`len/P + 1` pages starting at `start` rounded down to a page boundary are
all present — one page more than the pages overlapping `[start,
start+len)` whenever `len` is an exact multiple of `P` (the source's
`end = ((start+len)/P)*P + P` overshoots in that case). -/
theorem validate_region_pages (g : Nat → Option PageFrame) (start len : Nat) :
    validate_region g start len = true ↔
      ∀ k, k ≤ len / PAGE_SIZE →
        (g (start / PAGE_SIZE * PAGE_SIZE + k * PAGE_SIZE)).isSome = true := by
  have hc : ((start / PAGE_SIZE * PAGE_SIZE + len) / PAGE_SIZE * PAGE_SIZE + PAGE_SIZE
      - start / PAGE_SIZE * PAGE_SIZE + PAGE_SIZE - 1) / PAGE_SIZE = len / PAGE_SIZE + 1 := by
    simp only [PAGE_SIZE]
    omega
  simp only [validate_region]
  rw [hc, presentRange_iff]
  constructor
  · intro h k hk; exact h k (by omega)
  · intro h k hk; exact h k (by omega)

/-- C8 counterexample: only page 0 is mapped; the single page overlapping
`[0, PAGE_SIZE)` is present, so the claim predicts true, yet
`validate_region` also demands the page at `PAGE_SIZE` and returns
false. -/
theorem validate_region_exact_multiple_overshoot :
    validate_region (fun a => if a = 0 then some (afFrame 0x40000 false true false) else none)
      0 PAGE_SIZE = false ∧
    ((fun a => if a = 0 then some (afFrame 0x40000 false true false) else none) 0).isSome
      = true := by
  constructor
  · decide
  · decide

/-- C6 (amended): the x86 `virt_to_phys` override returns the page base
`entry.get_address()` WITHOUT combining the sub-page offset of `virt`, so
it agrees with the directory abstraction's default `virt_to_phys` exactly
on page-aligned addresses (where the offset is zero); the two are `none`
in the same cases. -/
theorem virt_to_phys_drops_offset (d : PageDir) (v : Nat) (hv : v % PAGE_SIZE = 0) :
    PageDir.virt_to_phys d v = (PageDir.get_page d v).map PageFrame.addr ∧
    PageDir.virt_to_phys d v = virtToPhysDefault (PageDir.get_page d) PAGE_SIZE v := by
  have hbase : ∀ w : Nat, PageDir.virt_to_phys d w = (PageDir.get_page d w).map PageFrame.addr := by
    intro w
    unfold PageDir.virt_to_phys PageDir.get_page
    cases hd : d.tables (w / PAGE_SIZE / 1024) with
    | none => simp [hd]
    | some tr =>
        by_cases he : PageTableEntry.is_unused (tr.table (w / PAGE_SIZE % 1024))
        · simp [hd, he]
        · simp [hd, he, entryToPageFrame]
  have h1 : v / PAGE_SIZE * PAGE_SIZE = v := Nat.div_mul_cancel (Nat.dvd_of_mod_eq_zero hv)
  refine ⟨hbase v, ?_⟩
  simp only [virtToPhysDefault, h1, hv, Nat.or_zero]
  rw [hbase v]

/-- C6 witness: concrete aligned address at a directory with one mapped
page. -/
theorem virt_to_phys_drops_offset_witness :
    PageDir.virt_to_phys
        ⟨fun i => if i = 0 then some ⟨fun j => if j = 0 then 0x1001 else 0, false⟩ else none,
          fun _ => 0, 0, false⟩ 0 =
      (PageDir.get_page
        ⟨fun i => if i = 0 then some ⟨fun j => if j = 0 then 0x1001 else 0, false⟩ else none,
          fun _ => 0, 0, false⟩ 0).map PageFrame.addr ∧
    PageDir.virt_to_phys
        ⟨fun i => if i = 0 then some ⟨fun j => if j = 0 then 0x1001 else 0, false⟩ else none,
          fun _ => 0, 0, false⟩ 0 =
      virtToPhysDefault
        (PageDir.get_page
          ⟨fun i => if i = 0 then some ⟨fun j => if j = 0 then 0x1001 else 0, false⟩ else none,
            fun _ => 0, 0, false⟩) PAGE_SIZE 0 :=
  virt_to_phys_drops_offset _ 0 (by decide)

/-- C6 counterexample: at the unaligned address 1, with the page at 0
backed by physical `0x1000`, the override returns `0x1000` while the
directory default returns `0x1001` (base combined with offset 1), so the
claimed equivalence with `get_page`-plus-offset fails. -/
theorem virt_to_phys_offset_cex :
    PageDir.virt_to_phys
        ⟨fun i => if i = 0 then some ⟨fun j => if j = 0 then 0x1001 else 0, false⟩ else none,
          fun _ => 0, 0, false⟩ 1 = some 0x1000 ∧
    virtToPhysDefault
        (PageDir.get_page
          ⟨fun i => if i = 0 then some ⟨fun j => if j = 0 then 0x1001 else 0, false⟩ else none,
            fun _ => 0, 0, false⟩) PAGE_SIZE 1 = some 0x1001 := by
  refine ⟨by decide, by decide⟩

/-- C10: storing a frame whose encoding is the all-zero entry (for
example `PageFrame::default()`) through a successful `set_page` leaves the
address observably unmapped: `get_page` returns `None` and `is_unused`
returns true.  The `addr < 2^32` hypothesis is the `usize` range of the
32-bit target. -/
theorem set_page_zero_frame_unmaps (env : SetPageEnv) (d : PageDir) (addr : Nat)
    (f : PageFrame) (ha : addr < 2 ^ 32) (hf : pageFrameToEntry f = some 0)
    (hok : (PageDir.set_page env d addr (some f)).isOk = true) :
    spGetPage (PageDir.set_page env d addr (some f)) addr = some none ∧
    spIsUnused (PageDir.set_page env d addr (some f)) addr = some true := by
  have hglobal : ¬ (KERNEL_PAGE_DIR_SPLIT ≤ addr / PAGE_SIZE) := by
    simp only [KERNEL_PAGE_DIR_SPLIT, PAGE_SIZE]
    omega
  cases hd : d.tables (addr / PAGE_SIZE / 1024) with
  | some tr =>
      simp only [PageDir.set_page, hd, hf, if_neg hglobal, spGetPage, spIsUnused,
        PageDir.get_page, PageDir.is_unused, PageTableEntry.is_unused]
      simp
  | none =>
      cases hat : env.allocTable with
      | none => simp [PageDir.set_page, hd, hat, SPResult.isOk] at hok
      | some ptr =>
          by_cases hptr : ptr < KERNEL_PAGE_DIR_SPLIT
          · simp [PageDir.set_page, hd, hat, hptr, SPResult.isOk] at hok
          · cases hv2p : env.curV2P ptr with
            | none => simp [PageDir.set_page, hd, hat, hptr, hv2p, SPResult.isOk] at hok
            | some phys =>
                have hm : addr / PAGE_SIZE * PAGE_SIZE < 2 ^ 32 :=
                  Nat.lt_of_le_of_lt (Nat.div_mul_le_self addr PAGE_SIZE) ha
                by_cases hp32 : phys < 2 ^ 32
                · have hidx : (addr / PAGE_SIZE * PAGE_SIZE) >>> 22 = addr / PAGE_SIZE / 1024 := by
                    rw [Nat.shiftRight_eq_div_pow]
                    have h22 : (2 : Nat) ^ 22 = 4194304 := by norm_num
                    rw [h22]
                    simp only [PAGE_SIZE]
                    omega
                  simp only [PageDir.set_page, hd, hat, hptr, hv2p, if_pos hm, if_pos hp32,
                    if_neg hptr, hf, if_neg hglobal, PageDir.add_page_table, hidx,
                    spGetPage, spIsUnused, PageDir.get_page, PageDir.is_unused,
                    PageTableEntry.is_unused]
                  simp
                · exfalso
                  simp only [PageDir.set_page, hd, hat, if_neg hptr, hv2p, if_pos hm,
                    if_neg hp32, SPResult.isOk] at hok
                  exact Bool.false_ne_true hok

/-- C10 witness: mapping `PageFrame::default()` at `0x1000` in a directory
that already has a (zeroed) page table. -/
theorem set_page_zero_frame_unmaps_witness :
    ((0x1000 : Nat) < 2 ^ 32 ∧ pageFrameToEntry PageFrame.default = some 0 ∧
      (PageDir.set_page ⟨none, fun _ => none⟩
        ⟨fun i => if i = 0 then some ⟨fun _ => 0, true⟩ else none, fun _ => 0, 0, false⟩
        0x1000 (some PageFrame.default)).isOk = true) ∧
    (spGetPage (PageDir.set_page ⟨none, fun _ => none⟩
        ⟨fun i => if i = 0 then some ⟨fun _ => 0, true⟩ else none, fun _ => 0, 0, false⟩
        0x1000 (some PageFrame.default)) 0x1000 = some none ∧
      spIsUnused (PageDir.set_page ⟨none, fun _ => none⟩
        ⟨fun i => if i = 0 then some ⟨fun _ => 0, true⟩ else none, fun _ => 0, 0, false⟩
        0x1000 (some PageFrame.default)) 0x1000 = some true) :=
  ⟨⟨by decide, by decide, by rfl⟩,
    set_page_zero_frame_unmaps ⟨none, fun _ => none⟩
      ⟨fun i => if i = 0 then some ⟨fun _ => 0, true⟩ else none, fun _ => 0, 0, false⟩
      0x1000 PageFrame.default (by decide) (by decide) (by rfl)⟩

/-- C2: the kernel-half Global bit is NEVER set by `set_page`.  The source
divides `addr` by the page size first and then compares the page NUMBER
against the byte address `KERNEL_PAGE_DIR_SPLIT`, so the comparison is
false for every 32-bit address.  At the kernel-half address `0xe0000000`
(with its page table present) a successful `set_page` stores entry
`0x40001` — Present only, Global (bit 8) clear — where the claim requires
Global to be set. -/
theorem set_page_kernel_half_no_global :
    setPageEntry
        (PageDir.set_page ⟨none, fun _ => none⟩
          ⟨fun i => if i = 896 then some ⟨fun _ => 0, true⟩ else none, fun _ => 0, 0, false⟩
          0xe0000000 (some (afFrame 0x40000 false false false))) 0xe0000000
      = some 0x40001 ∧
    (0x40001 : Nat) &&& PTF_Global = 0 ∧ KERNEL_PAGE_DIR_SPLIT ≤ 0xe0000000 := by
  refine ⟨by decide, by decide, by decide⟩

/-- C1 (amended): with at most one reference to the frame,
`copy_on_write` performs no copy and allocates nothing (reference map and
page manager come back unchanged), and rewrites the entry at `v` to the
same frame with `writable` turned on — but `copy_on_write` and
`referenced` are NOT cleared: the source only sets `writable`, commenting
that keeping the flags routes deallocation through the reference
counter. -/
theorem copy_on_write_single_owner (sharedFree : Nat → Bool) (copied_area : Nat)
    (refs : List (Nat × Nat)) (m : PageManager) (dir : Nat → Option PageFrame)
    (v : Nat) (f : PageFrame)
    (hv : v % PAGE_SIZE = 0) (hcow : f.copy_on_write = true) (href : f.referenced = true)
    (hwr : f.writable = false) (hrc : get_references_for refs f.addr ≤ 1) :
    copy_on_write sharedFree copied_area refs m dir v f =
      some (.ok { f with writable := true },
        updDir dir v (some { f with writable := true }), refs, m) := by
  unfold copy_on_write
  rw [if_neg (by omega : ¬1 < get_references_for refs f.addr)]

/-- C1 witness: a concrete single-owner CoW page at `0x1000`. -/
theorem copy_on_write_single_owner_witness :
    ((0x1000 : Nat) % PAGE_SIZE = 0 ∧
      (⟨0x40000, true, false, false, true, false, true, false⟩ : PageFrame).copy_on_write = true ∧
      (⟨0x40000, true, false, false, true, false, true, false⟩ : PageFrame).referenced = true ∧
      (⟨0x40000, true, false, false, true, false, true, false⟩ : PageFrame).writable = false ∧
      get_references_for [(0x40000, 1)]
        (⟨0x40000, true, false, false, true, false, true, false⟩ : PageFrame).addr ≤ 1) ∧
    copy_on_write (fun _ => false) 0xe0000000 [(0x40000, 1)] ⟨⟨[true]⟩, 4096⟩
        (fun x => if x = 0x1000 then
          some ⟨0x40000, true, false, false, true, false, true, false⟩ else none)
        0x1000 ⟨0x40000, true, false, false, true, false, true, false⟩ =
      some (.ok ({ (⟨0x40000, true, false, false, true, false, true, false⟩ : PageFrame) with
          writable := true }),
        updDir (fun x => if x = 0x1000 then
            some ⟨0x40000, true, false, false, true, false, true, false⟩ else none)
          0x1000 (some { (⟨0x40000, true, false, false, true, false, true, false⟩ : PageFrame) with
            writable := true }),
        [(0x40000, 1)], ⟨⟨[true]⟩, 4096⟩) :=
  ⟨⟨by decide, by decide, by decide, by decide, by decide⟩,
    copy_on_write_single_owner (fun _ => false) 0xe0000000 [(0x40000, 1)] ⟨⟨[true]⟩, 4096⟩
      (fun x => if x = 0x1000 then
        some ⟨0x40000, true, false, false, true, false, true, false⟩ else none)
      0x1000 ⟨0x40000, true, false, false, true, false, true, false⟩
      (by decide) (by decide) (by decide) (by decide) (by decide)⟩

/-- C1 counterexample: on a single-owner CoW page the claim predicts the
resulting entry has `copy_on_write` cleared; the code leaves it set (the
resulting frame at `0x1000` still carries `copy_on_write = true` and
`referenced = true`). -/
theorem copy_on_write_keeps_cow_flag :
    get_references_for [(0x40000, 1)] 0x40000 ≤ 1 ∧
    cowDirAt (copy_on_write (fun _ => false) 0xe0000000 [(0x40000, 1)] ⟨⟨[true]⟩, 4096⟩
        (fun x => if x = 0x1000 then
          some ⟨0x40000, true, false, false, true, false, true, false⟩ else none)
        0x1000 ⟨0x40000, true, false, false, true, false, true, false⟩) 0x1000 =
      some (some ⟨0x40000, true, false, true, true, false, true, false⟩) := by
  exact ⟨by decide, by decide⟩

/-- C4: with at least two references, a successful `copy_on_write` leaves
at `v` a present, writable entry with `copy_on_write` and `referenced`
cleared whose physical address is the frame backing the heap buffer
(different from `f`'s), and the reference count of `f`'s frame drops by
exactly one.  The hypotheses about `copied_area` state that the heap
buffer is page aligned, mapped, distinct from `v`, and backed by a frame
other than `f`'s — all properties the kernel heap provides. -/
theorem copy_on_write_shared_copies (sharedFree : Nat → Bool) (copied_area : Nat)
    (refs : List (Nat × Nat)) (m : PageManager) (dir : Nat → Option PageFrame)
    (v : Nat) (f g : PageFrame) (k i : Nat)
    (hv : v % PAGE_SIZE = 0) (hca : copied_area % PAGE_SIZE = 0)
    (hk : refsGet refs f.addr = some k) (hk2 : 2 ≤ k)
    (hg : dir copied_area = some g) (hne : copied_area ≠ v) (hga : g.addr ≠ f.addr)
    (hcow : f.copy_on_write = true) (href : f.referenced = true) (hwr : f.writable = false)
    (hpres : f.present = true) (hsh : f.shared = false)
    (halloc : m.frame_set.first_unset = some i) :
    cowOk (copy_on_write sharedFree copied_area refs m dir v f) = true ∧
    cowDirAt (copy_on_write sharedFree copied_area refs m dir v f) v =
      some (some { f with
        addr := g.addr, writable := true, copy_on_write := false, referenced := false }) ∧
    ({ f with
        addr := g.addr, writable := true, copy_on_write := false,
        referenced := false } : PageFrame).present = true ∧
    g.addr ≠ f.addr ∧
    cowRefsAt (copy_on_write sharedFree copied_area refs m dir v f) f.addr =
      some (some (k - 1)) := by
  have hrc : get_references_for refs f.addr = k := by
    unfold get_references_for
    rw [hk]
    rfl
  have hcond : 1 < get_references_for refs f.addr := by omega
  have hdvd : copied_area / PAGE_SIZE * PAGE_SIZE = copied_area :=
    Nat.div_mul_cancel (Nat.dvd_of_mod_eq_zero hca)
  have hv2p : virtToPhysDefault dir PAGE_SIZE copied_area = some g.addr := by
    simp [virtToPhysDefault, hdvd, hca, hg, Nat.or_zero]
  have halloc' : m.alloc_frame =
      .ok (i * m.page_size, { m with frame_set := m.frame_set.set i }) := by
    unfold PageManager.alloc_frame
    rw [halloc]
  have hfp : ∀ m' : PageManager,
      free_page sharedFree refs m' f = some (refsSet refs f.addr (k - 1), m') := by
    intro m'
    simp [free_page, remove_reference, hsh, href, hk, (by omega : 1 < k)]
  have hresult : copy_on_write sharedFree copied_area refs m dir v f =
      some (.ok ({ PageFrame.default with
          addr := i * m.page_size, present := true, writable := true }),
        updDir (updDir dir v (some { f with
            addr := g.addr, writable := true, copy_on_write := false,
            referenced := false })) copied_area
          (some { PageFrame.default with
            addr := i * m.page_size, present := true, writable := true }),
        refsSet refs f.addr (k - 1), { m with frame_set := m.frame_set.set i }) := by
    simp only [copy_on_write, if_pos hcond, hv2p, halloc', hfp, Option.map_some']
  rw [hresult]
  refine ⟨rfl, ?_, hpres, hga, ?_⟩
  · simp [cowDirAt, updDir, Ne.symm hne]
  · simp only [cowRefsAt]
    rw [refsGet_refsSet_self f.addr (k - 1) refs k hk]

/-- C4 witness: two processes share frame `0x40000`; the heap buffer at
`0xe0000000` is backed by `0x50000`; the free frame list has index 1
available. -/
theorem copy_on_write_shared_copies_witness :
    ((0x1000 : Nat) % PAGE_SIZE = 0 ∧ (0xe0000000 : Nat) % PAGE_SIZE = 0 ∧
      refsGet [(0x40000, 2)] (0x40000 : Nat) = some 2 ∧ (2 : Nat) ≤ 2 ∧
      (0xe0000000 : Nat) ≠ 0x1000 ∧ (0x50000 : Nat) ≠ 0x40000 ∧
      (⟨⟨[true, false]⟩, 4096⟩ : PageManager).frame_set.first_unset = some 1) ∧
    (cowOk (copy_on_write (fun _ => false) 0xe0000000 [(0x40000, 2)] ⟨⟨[true, false]⟩, 4096⟩
        (fun x => if x = 0x1000 then
            some ⟨0x40000, true, false, false, true, false, true, false⟩
          else if x = 0xe0000000 then
            some ⟨0x50000, true, false, true, false, false, false, false⟩ else none)
        0x1000 ⟨0x40000, true, false, false, true, false, true, false⟩) = true ∧
      cowDirAt (copy_on_write (fun _ => false) 0xe0000000 [(0x40000, 2)] ⟨⟨[true, false]⟩, 4096⟩
        (fun x => if x = 0x1000 then
            some ⟨0x40000, true, false, false, true, false, true, false⟩
          else if x = 0xe0000000 then
            some ⟨0x50000, true, false, true, false, false, false, false⟩ else none)
        0x1000 ⟨0x40000, true, false, false, true, false, true, false⟩) 0x1000 =
        some (some ⟨0x50000, true, false, true, false, false, false, false⟩) ∧
      (⟨0x50000, true, false, true, false, false, false, false⟩ : PageFrame).present = true ∧
      (⟨0x50000, true, false, true, false, false, false, false⟩ : PageFrame).addr ≠
        (⟨0x40000, true, false, false, true, false, true, false⟩ : PageFrame).addr ∧
      cowRefsAt (copy_on_write (fun _ => false) 0xe0000000 [(0x40000, 2)] ⟨⟨[true, false]⟩, 4096⟩
        (fun x => if x = 0x1000 then
            some ⟨0x40000, true, false, false, true, false, true, false⟩
          else if x = 0xe0000000 then
            some ⟨0x50000, true, false, true, false, false, false, false⟩ else none)
        0x1000 ⟨0x40000, true, false, false, true, false, true, false⟩)
        (⟨0x40000, true, false, false, true, false, true, false⟩ : PageFrame).addr =
        some (some 1)) := by
  have h := copy_on_write_shared_copies (fun _ => false) 0xe0000000 [(0x40000, 2)]
    ⟨⟨[true, false]⟩, 4096⟩
    (fun x => if x = 0x1000 then
        some ⟨0x40000, true, false, false, true, false, true, false⟩
      else if x = 0xe0000000 then
        some ⟨0x50000, true, false, true, false, false, false, false⟩ else none)
    0x1000 ⟨0x40000, true, false, false, true, false, true, false⟩
    ⟨0x50000, true, false, true, false, false, false, false⟩ 2 1
    (by decide) (by decide) (by decide) (by decide) (by decide) (by decide) (by decide)
    (by decide) (by decide) (by decide) (by decide) (by decide) (by decide)
  exact ⟨⟨by decide, by decide, by decide, by decide, by decide, by decide, by decide⟩,
    h.1, h.2.1, h.2.2.1, h.2.2.2.1, h.2.2.2.2⟩

/-- C5 (amended): when `alloc_frame_at` fails with `FrameInUse` (address
already mapped) the manager and directory are untouched; but when the
error comes from `set_page`, the frame bitset keeps the bit for
`phys / page_size` set — the source sets the bit before calling `set_page`
and never rolls it back. -/
theorem alloc_frame_at_err_no_rollback {σ : Type} (ops : DirOps σ) (m : PageManager)
    (d : σ) (addr phys : Nat) (u w x : Bool) (e : PagingError) (d1 : σ)
    (h1 : ops.pageSize = m.page_size) (h2 : addr % m.page_size = 0)
    (h3 : phys % m.page_size = 0)
    (h5 : ops.is_unused d addr = true →
      ops.set_page d addr (some (afFrame phys u w x)) = .err e d1) :
    (ops.is_unused d addr = false →
      alloc_frame_at ops m d addr phys u w x = .err .FrameInUse (m, d)) ∧
    (ops.is_unused d addr = true →
      alloc_frame_at ops m d addr phys u w x =
        .err e ({ m with frame_set := m.frame_set.set (phys / m.page_size) }, d1)) := by
  constructor
  · intro hu
    simp [alloc_frame_at, h1, h2, h3, hu]
  · intro hu
    simp [alloc_frame_at, h1, h2, h3, hu, h5 hu]

/-- C5 witness: an i586 directory with no page table and an exhausted
heap: `is_unused` holds, `set_page` fails with `AllocError`, and the
returned manager keeps bit `phys / page_size = 2` set. -/
theorem alloc_frame_at_err_no_rollback_witness :
    ((i586Ops ⟨none, fun _ => none⟩).pageSize =
        (⟨⟨[true, true, false]⟩, 4096⟩ : PageManager).page_size ∧
      (0x1000 : Nat) % (⟨⟨[true, true, false]⟩, 4096⟩ : PageManager).page_size = 0 ∧
      (0x2000 : Nat) % (⟨⟨[true, true, false]⟩, 4096⟩ : PageManager).page_size = 0) ∧
    (((i586Ops ⟨none, fun _ => none⟩).is_unused
          ⟨fun _ => none, fun _ => 0, 0, false⟩ 0x1000 = false →
        alloc_frame_at (i586Ops ⟨none, fun _ => none⟩) ⟨⟨[true, true, false]⟩, 4096⟩
          ⟨fun _ => none, fun _ => 0, 0, false⟩ 0x1000 0x2000 false true false =
          .err .FrameInUse (⟨⟨[true, true, false]⟩, 4096⟩,
            ⟨fun _ => none, fun _ => 0, 0, false⟩)) ∧
      ((i586Ops ⟨none, fun _ => none⟩).is_unused
          ⟨fun _ => none, fun _ => 0, 0, false⟩ 0x1000 = true →
        alloc_frame_at (i586Ops ⟨none, fun _ => none⟩) ⟨⟨[true, true, false]⟩, 4096⟩
          ⟨fun _ => none, fun _ => 0, 0, false⟩ 0x1000 0x2000 false true false =
          .err .AllocError
            ({ (⟨⟨[true, true, false]⟩, 4096⟩ : PageManager) with
                frame_set := (⟨⟨[true, true, false]⟩, 4096⟩ : PageManager).frame_set.set
                  (0x2000 / (⟨⟨[true, true, false]⟩, 4096⟩ : PageManager).page_size) },
              ⟨fun _ => none, fun _ => 0, 0, false⟩))) :=
  ⟨⟨by decide, by decide, by decide⟩,
    alloc_frame_at_err_no_rollback (i586Ops ⟨none, fun _ => none⟩)
      ⟨⟨[true, true, false]⟩, 4096⟩ ⟨fun _ => none, fun _ => 0, 0, false⟩
      0x1000 0x2000 false true false .AllocError ⟨fun _ => none, fun _ => 0, 0, false⟩
      (by decide) (by decide) (by decide) (fun _ => rfl)⟩

/-- C5 counterexample: at the same configuration the call fails with
`AllocError` and the returned manager's bitset is `[true, true, true]`,
not the original `[true, true, false]`: partial state IS left behind,
refuting the claim that the bitset is exactly as before on every error. -/
theorem alloc_frame_at_leaks_bitset_bit :
    afaManager (alloc_frame_at (i586Ops ⟨none, fun _ => none⟩) ⟨⟨[true, true, false]⟩, 4096⟩
        ⟨fun _ => none, fun _ => 0, 0, false⟩ 0x1000 0x2000 false true false) =
      some ⟨⟨[true, true, true]⟩, 4096⟩ ∧
    (⟨⟨[true, true, true]⟩, 4096⟩ : PageManager) ≠ ⟨⟨[true, true, false]⟩, 4096⟩ := by
  exact ⟨by decide, by decide⟩

/-- C3: at `addr = 0`, `len = PAGE_SIZE` with the source directory mapping
exactly the one page overlapping `[0, PAGE_SIZE)` (a writable, non-CoW
page at 0), the gathering phase of `map_memory_from` returns `BadAddress`:
the inclusive `start..=end` walk also reads the page at `PAGE_SIZE`, which
lies outside the requested range.  The claim says no page outside
`[addr, addr+len)` is needed, so the region being fully mapped should
succeed. -/
theorem map_memory_from_inclusive_end_bug :
    map_memory_from_phys (fun _ => false) (fun _ => 0) [] ⟨⟨[true]⟩, 4096⟩
        (fun x => if x = 0 then some (afFrame 0xaa000 false true false) else none) 0 PAGE_SIZE =
      some (.error .BadAddress,
        (fun x => if x = 0 then some (afFrame 0xaa000 false true false) else none),
        [], ⟨⟨[true]⟩, 4096⟩) := by
  rfl

/-! Helper lemmas for the `find_hole` characterisation (C7). -/

/-- One scan step of the reference scanner over a failing address. -/
theorem firstGrid_skip (q : Nat → Bool) (ps a n : Nat) (hq : q a = false) :
    firstGrid q ps a (n + 1) = firstGrid q ps (a + ps) n := by
  simp [firstGrid, hq]

/-- One scan step of the reference scanner over a satisfying address. -/
theorem firstGrid_pos (q : Nat → Bool) (ps a n : Nat) (hq : q a = true) :
    firstGrid q ps a (n + 1) = some a := by
  simp [firstGrid, hq]

/-- The reference scanner skips any leading block of failing addresses. -/
theorem firstGrid_skip_many (q : Nat → Bool) (ps : Nat) :
    ∀ m a n, (∀ i, i < m → q (a + i * ps) = false) →
      firstGrid q ps a (m + n) = firstGrid q ps (a + m * ps) n := by
  intro m
  induction m with
  | zero => intro a n _; simp
  | succ j ih =>
      intro a n hf
      have h0 : q a = false := by simpa using hf 0 (by omega)
      rw [show j + 1 + n = (j + n) + 1 from by omega, firstGrid_skip q ps a (j + n) h0]
      rw [ih (a + ps) n (fun i hi => by
        have := hf (i + 1) (by omega)
        rwa [show a + (i + 1) * ps = a + ps + i * ps from by ring] at this)]
      rw [show a + ps + j * ps = a + (j + 1) * ps from by ring]

/-- The reference scanner returns none over a block of failing
addresses. -/
theorem firstGrid_all_false (q : Nat → Bool) (ps : Nat) (n a : Nat)
    (hf : ∀ i, i < n → q (a + i * ps) = false) :
    firstGrid q ps a n = none := by
  have h := firstGrid_skip_many q ps n a 0 hf
  simpa using h

/-- What a `some` answer of the reference scanner means. -/
theorem firstGrid_some_spec (q : Nat → Bool) (ps : Nat) :
    ∀ n a x, firstGrid q ps a n = some x →
      ∃ j, j < n ∧ x = a + j * ps ∧ q x = true ∧
        ∀ i, i < j → q (a + i * ps) = false := by
  intro n
  induction n with
  | zero => intro a x h; simp [firstGrid] at h
  | succ nn ih =>
      intro a x h
      cases hq : q a with
      | true =>
          rw [firstGrid_pos q ps a nn hq] at h
          have hax : a = x := by injection h
          subst hax
          exact ⟨0, by omega, by simp, hq, fun i hi => by omega⟩
      | false =>
          rw [firstGrid_skip q ps a nn hq] at h
          obtain ⟨j, hj, hx, hqx, hprev⟩ := ih (a + ps) x h
          refine ⟨j + 1, by omega, by rw [hx]; ring, hqx, ?_⟩
          intro i hi
          match i with
          | 0 => simpa using hq
          | jj + 1 =>
              have := hprev jj (by omega)
              rwa [show a + ps + jj * ps = a + (jj + 1) * ps from by ring] at this

/-- What a `none` answer of the reference scanner means. -/
theorem firstGrid_none_spec (q : Nat → Bool) (ps : Nat) :
    ∀ n a, firstGrid q ps a n = none → ∀ i, i < n → q (a + i * ps) = false := by
  intro n
  induction n with
  | zero => intro a _ i hi; omega
  | succ nn ih =>
      intro a h i hi
      cases hq : q a with
      | true =>
          rw [firstGrid_pos q ps a nn hq] at h
          exact absurd h (by simp)
      | false =>
          rw [firstGrid_skip q ps a nn hq] at h
          match i with
          | 0 => simpa using hq
          | j + 1 =>
              have := ih (a + ps) h j (by omega)
              rwa [show a + ps + j * ps = a + (j + 1) * ps from by ring] at this

/-- `holeGood` fails when the run would cross the end of the scan
range. -/
theorem holeGood_false_of_end (unused : Nat → Bool) (size ps e a : Nat)
    (h : ¬ a + size < e) : holeGood unused size ps e a = false := by
  unfold holeGood
  rw [decide_eq_false h]
  simp

/-- `holeGood` fails when some page of the run is in use. -/
theorem holeGood_false_of_blocked (unused : Nat → Bool) (size ps e a c : Nat)
    (hc : c ≤ size / ps) (hu : unused (a + c * ps) = false) :
    holeGood unused size ps e a = false := by
  cases hg : holeGood unused size ps e a with
  | false => rfl
  | true =>
      exfalso
      simp only [holeGood, Bool.and_eq_true, List.all_eq_true, List.mem_range,
        decide_eq_true_eq] at hg
      have := hg.2 c (by omega)
      rw [hu] at this
      exact Bool.false_ne_true this

/-- `holeGood` holds when the whole run is unused and fits below `e`. -/
theorem holeGood_true_intro (unused : Nat → Bool) (size ps e a : Nat)
    (h1 : a + size < e) (h2 : ∀ k, k ≤ size / ps → unused (a + k * ps) = true) :
    holeGood unused size ps e a = true := by
  simp only [holeGood, Bool.and_eq_true, List.all_eq_true, List.mem_range,
    decide_eq_true_eq]
  exact ⟨h1, fun k hk => h2 k (by omega)⟩

/-- Unpacking `holeGood`. -/
theorem holeGood_elim (unused : Nat → Bool) (size ps e a : Nat)
    (h : holeGood unused size ps e a = true) :
    a + size < e ∧ ∀ k, k ≤ size / ps → unused (a + k * ps) = true := by
  simp only [holeGood, Bool.and_eq_true, List.all_eq_true, List.mem_range,
    decide_eq_true_eq] at h
  exact ⟨h.1, fun k hk => h.2 k (by omega)⟩

/-- Master invariant of the `find_hole` scan loop: starting with no
candidate the loop computes exactly the reference scan from the current
address; starting with candidate `h` whose run up to the current address
is unused, it computes the reference scan from `h`. -/
theorem findHoleLoop_spec (unused : Nat → Bool) (size ps e start : Nat)
    (hps : 0 < ps) (hdvd : ps ∣ size) (hge : ps ≤ size) :
    ∀ n : Nat,
      (∀ addr, start ≤ addr → addr + n * ps = e →
        findHoleLoop unused size ps start n addr none =
          firstGrid (holeGood unused size ps e) ps addr n) ∧
      (∀ addr h, start ≤ h → h ≤ addr → ps ∣ (addr - h) → addr - h ≤ size →
        addr + n * ps = e →
        (∀ b, h ≤ b → b < addr → ps ∣ (b - h) → unused b = true) →
        findHoleLoop unused size ps start n addr (some h) =
          firstGrid (holeGood unused size ps e) ps h ((addr - h) / ps + n)) := by
  intro n
  induction n with
  | zero =>
      constructor
      · intro addr _ _
        rfl
      · intro addr h hsh hha hdb hle harith hrun
        symm
        apply firstGrid_all_false
        intro i hi
        apply holeGood_false_of_end
        omega
  | succ n ih =>
      obtain ⟨ihP, ihQ⟩ := ih
      constructor
      · -- no candidate yet
        intro addr hsa harith
        have harith' : addr + ps + n * ps = e := by
          have hsm : (n + 1) * ps = n * ps + ps := Nat.succ_mul n ps
          omega
        cases hu : unused addr with
        | true =>
            have hstep : findHoleLoop unused size ps start (n + 1) addr none =
                findHoleLoop unused size ps start n (addr + ps) (some addr) := by
              simp [findHoleLoop, hu, hsa]
            rw [hstep]
            have hrun1 : ∀ b, addr ≤ b → b < addr + ps → ps ∣ (b - addr) → unused b = true := by
              intro b hb1 hb2 hb3
              have hz : b - addr = 0 := Nat.eq_zero_of_dvd_of_lt hb3 (by omega)
              have : b = addr := by omega
              rw [this]
              exact hu
            rw [ihQ (addr + ps) addr hsa (by omega)
              (by simp)
              (by omega) (by omega) hrun1]
            rw [show addr + ps - addr = ps from by omega, Nat.div_self hps]
            rw [show 1 + n = n + 1 from by omega]
        | false =>
            have hstep : findHoleLoop unused size ps start (n + 1) addr none =
                findHoleLoop unused size ps start n (addr + ps) none := by
              simp [findHoleLoop, hu]
            rw [hstep, ihP (addr + ps) (by omega) (by omega)]
            have hq0 : holeGood unused size ps e addr = false := by
              apply holeGood_false_of_blocked unused size ps e addr 0 (Nat.zero_le _)
              simpa using hu
            rw [show firstGrid (holeGood unused size ps e) ps addr (n + 1) =
              if holeGood unused size ps e addr = true then some addr
              else firstGrid (holeGood unused size ps e) ps (addr + ps) n from rfl, hq0]
            simp
      · -- candidate `h` present
        intro addr h hsh hha hdb hle harith hrun
        have harith' : addr + ps + n * ps = e := by
          have hsm : (n + 1) * ps = n * ps + ps := Nat.succ_mul n ps
          omega
        cases hu : unused addr with
        | true =>
            by_cases hsz : size ≤ addr - h
            · have haddr : addr - h = size := by omega
              have hstep : findHoleLoop unused size ps start (n + 1) addr (some h) =
                  some h := by
                simp [findHoleLoop, hu, hsz]
              rw [hstep]
              have hq : holeGood unused size ps e h = true := by
                apply holeGood_true_intro
                · omega
                · intro k hk
                  have hkps : k * ps ≤ size := by
                    calc k * ps ≤ size / ps * ps := Nat.mul_le_mul_right ps hk
                    _ = size := Nat.div_mul_cancel hdvd
                  by_cases hbe : h + k * ps = addr
                  · rw [hbe]; exact hu
                  · refine hrun (h + k * ps) (by omega) (by omega) ?_
                    rw [show h + k * ps - h = k * ps from by omega]
                    exact Dvd.dvd.mul_left dvd_rfl k
              rw [show (addr - h) / ps + (n + 1) = ((addr - h) / ps + n) + 1 from by omega]
              rw [firstGrid_pos _ _ _ _ hq]
            · have hstep : findHoleLoop unused size ps start (n + 1) addr (some h) =
                  findHoleLoop unused size ps start n (addr + ps) (some h) := by
                simp [findHoleLoop, hu, hsz]
              rw [hstep]
              have hdvd2 : ps ∣ (addr + ps - h) := by
                rw [show addr + ps - h = (addr - h) + ps from by omega]
                exact Nat.dvd_add hdb dvd_rfl
              have hle2 : addr + ps - h ≤ size := by
                obtain ⟨c, hc⟩ := hdb
                obtain ⟨s, hs⟩ := hdvd
                have h1 : ps * c < ps * s := by omega
                have h2 : c < s := Nat.lt_of_mul_lt_mul_left h1
                have h3 : ps * (c + 1) ≤ ps * s := Nat.mul_le_mul_left ps (by omega)
                calc addr + ps - h = ps * c + ps := by omega
                _ = ps * (c + 1) := by ring
                _ ≤ ps * s := h3
                _ = size := hs.symm
              have hrun2 : ∀ b, h ≤ b → b < addr + ps → ps ∣ (b - h) → unused b = true := by
                intro b hb1 hb2 hb3
                by_cases hbe : b = addr
                · rw [hbe]; exact hu
                · have hlt : b < addr := by
                    by_contra hge2
                    have hgt : addr < b := by omega
                    have hd : ps ∣ (b - h) - (addr - h) := Nat.dvd_sub' hb3 hdb
                    have h0 : (b - h) - (addr - h) = 0 :=
                      Nat.eq_zero_of_dvd_of_lt hd (by omega)
                    omega
                  exact hrun b hb1 hlt hb3
              rw [ihQ (addr + ps) h hsh (by omega) hdvd2 hle2 (by omega) hrun2]
              rw [show addr + ps - h = (addr - h) + ps from by omega,
                Nat.add_div_right _ hps,
                show (addr - h) / ps + 1 + n = (addr - h) / ps + (n + 1) from by omega]
        | false =>
            have hstep : findHoleLoop unused size ps start (n + 1) addr (some h) =
                findHoleLoop unused size ps start n (addr + ps) none := by
              simp [findHoleLoop, hu]
            rw [hstep, ihP (addr + ps) (by omega) (by omega)]
            symm
            have hj : (addr - h) / ps * ps = addr - h := Nat.div_mul_cancel hdb
            rw [show (addr - h) / ps + (n + 1) = ((addr - h) / ps + 1) + n from by omega]
            rw [firstGrid_skip_many (holeGood unused size ps e) ps ((addr - h) / ps + 1) h n
              (by
                intro i hi
                have hij : i ≤ (addr - h) / ps := by omega
                apply holeGood_false_of_blocked unused size ps e (h + i * ps)
                  ((addr - h) / ps - i) ?_ ?_
                · have hmul : ((addr - h) / ps - i) * ps ≤ size := by
                    have hle3 : ((addr - h) / ps - i) * ps ≤ (addr - h) / ps * ps :=
                      Nat.mul_le_mul_right ps (by omega)
                    omega
                  exact (Nat.le_div_iff_mul_le hps).mpr hmul
                · have hsum : h + i * ps + ((addr - h) / ps - i) * ps = addr := by
                    have h1 : i * ps + ((addr - h) / ps - i) * ps = (addr - h) / ps * ps := by
                      rw [← Nat.add_mul]
                      congr 1
                      omega
                    omega
                  rw [hsum]
                  exact hu)]
            rw [show h + ((addr - h) / ps + 1) * ps = addr + ps from by
              rw [Nat.add_mul, Nat.one_mul, hj]; omega]

/-- C7 (amended): with `start` and `e` page aligned, `find_hole` returns
the LOWEST page-aligned address `a` in the range such that the
`size/P + 2` pages `a, a+P, ..., a+(size/P+1)·P` are ALL unused and the
last of them lies below `e` — the source rounds the requested size with
`(size/P)·P + P` (one page more than the claim's `ceil(size/P)` for exact
multiples) and its return test demands one further unused page; it
returns none exactly when no such address exists. -/
theorem find_hole_characterized (unused : Nat → Bool) (ps start e size : Nat)
    (hps : 0 < ps) (hs : start % ps = 0) (he : e % ps = 0) (hse : start ≤ e) :
    (∀ a, find_hole unused ps start e size = some a →
      start ≤ a ∧ (a - start) % ps = 0 ∧
      a + (size / ps * ps + ps) < e ∧
      (∀ k, k ≤ size / ps + 1 → unused (a + k * ps) = true) ∧
      (∀ b, start ≤ b → (b - start) % ps = 0 → b < a →
        ¬ (b + (size / ps * ps + ps) < e ∧
          ∀ k, k ≤ size / ps + 1 → unused (b + k * ps) = true))) ∧
    (find_hole unused ps start e size = none →
      ∀ b, start ≤ b → (b - start) % ps = 0 →
        ¬ (b + (size / ps * ps + ps) < e ∧
          ∀ k, k ≤ size / ps + 1 → unused (b + k * ps) = true)) := by
  have hdvd : ps ∣ (size / ps * ps + ps) :=
    Nat.dvd_add (Dvd.dvd.mul_left dvd_rfl (size / ps)) dvd_rfl
  have hge : ps ≤ size / ps * ps + ps := by omega
  have hdvd_es : ps ∣ (e - start) :=
    Nat.dvd_sub' (Nat.dvd_of_mod_eq_zero he) (Nat.dvd_of_mod_eq_zero hs)
  have harith : start + (e - start) / ps * ps = e := by
    rw [Nat.div_mul_cancel hdvd_es]
    omega
  have hdivq : (size / ps * ps + ps) / ps = size / ps + 1 := by
    rw [Nat.add_div_right _ hps, Nat.mul_div_cancel _ hps]
  have hloop := (findHoleLoop_spec unused (size / ps * ps + ps) ps e start hps hdvd hge
    ((e - start) / ps)).1 start (Nat.le_refl start) harith
  have hfh : find_hole unused ps start e size =
      firstGrid (holeGood unused (size / ps * ps + ps) ps e) ps start ((e - start) / ps) := by
    unfold find_hole
    exact hloop
  constructor
  · intro a hsome
    rw [hfh] at hsome
    obtain ⟨j, hj, hx, hq, hprev⟩ := firstGrid_some_spec _ ps _ start a hsome
    obtain ⟨hbound, hruns⟩ := holeGood_elim _ _ _ _ _ hq
    rw [hdivq] at hruns
    refine ⟨by omega, ?_, by omega, hruns, ?_⟩
    · rw [hx, show start + j * ps - start = j * ps from by omega]
      exact Nat.mul_mod_left j ps
    · intro b hb1 hb2 hb3 hbad
      have hbdvd : ps ∣ (b - start) := Nat.dvd_of_mod_eq_zero hb2
      have hbi : (b - start) / ps * ps = b - start := Nat.div_mul_cancel hbdvd
      have hblt : (b - start) / ps < j := by
        have : (b - start) / ps * ps < j * ps := by omega
        exact Nat.lt_of_mul_lt_mul_right this
      have hfalse := hprev ((b - start) / ps) hblt
      have hb : start + (b - start) / ps * ps = b := by omega
      rw [hb] at hfalse
      have htrue : holeGood unused (size / ps * ps + ps) ps e b = true := by
        apply holeGood_true_intro
        · exact hbad.1
        · intro k hk
          rw [hdivq] at hk
          exact hbad.2 k hk
      rw [htrue] at hfalse
      exact Bool.noConfusion hfalse
  · intro hnone b hb1 hb2 hbad
    rw [hfh] at hnone
    have hbdvd : ps ∣ (b - start) := Nat.dvd_of_mod_eq_zero hb2
    have hbi : (b - start) / ps * ps = b - start := Nat.div_mul_cancel hbdvd
    have hblt : (b - start) / ps < (e - start) / ps := by
      have h1 : b < e := by omega
      have h2 : (b - start) / ps * ps < (e - start) / ps * ps := by
        rw [hbi, Nat.div_mul_cancel hdvd_es]
        omega
      exact Nat.lt_of_mul_lt_mul_right h2
    have hfalse := firstGrid_none_spec _ ps _ start hnone ((b - start) / ps) hblt
    have hb : start + (b - start) / ps * ps = b := by omega
    rw [hb] at hfalse
    have htrue : holeGood unused (size / ps * ps + ps) ps e b = true := by
      apply holeGood_true_intro
      · exact hbad.1
      · intro k hk
        rw [hdivq] at hk
        exact hbad.2 k hk
    rw [htrue] at hfalse
    exact Bool.noConfusion hfalse

/-- C7 witness: the spec's own scenario — pages `0x1000`, `0x2000`,
`0x4000` in use, everything else unused in `[0, 0x10000)`, requested size
`0x2000` — where `find_hole` returns `0x5000`, the lowest address complying
with the amended characterisation. -/
theorem find_hole_characterized_witness :
    ((0 : Nat) < 4096 ∧ (0 : Nat) % 4096 = 0 ∧ (0x10000 : Nat) % 4096 = 0 ∧
      (0 : Nat) ≤ 0x10000) ∧
    find_hole (fun a => !(a == 0x1000 || a == 0x2000 || a == 0x4000)) 4096 0 0x10000 0x2000 =
      some 0x5000 ∧
    ((∀ a, find_hole (fun a => !(a == 0x1000 || a == 0x2000 || a == 0x4000)) 4096 0 0x10000
          0x2000 = some a →
        0 ≤ a ∧ (a - 0) % 4096 = 0 ∧
        a + (0x2000 / 4096 * 4096 + 4096) < 0x10000 ∧
        (∀ k, k ≤ 0x2000 / 4096 + 1 →
          (fun a => !(a == 0x1000 || a == 0x2000 || a == 0x4000)) (a + k * 4096) = true) ∧
        (∀ b, 0 ≤ b → (b - 0) % 4096 = 0 → b < a →
          ¬ (b + (0x2000 / 4096 * 4096 + 4096) < 0x10000 ∧
            ∀ k, k ≤ 0x2000 / 4096 + 1 →
              (fun a => !(a == 0x1000 || a == 0x2000 || a == 0x4000)) (b + k * 4096) = true))) ∧
      (find_hole (fun a => !(a == 0x1000 || a == 0x2000 || a == 0x4000)) 4096 0 0x10000
          0x2000 = none →
        ∀ b, 0 ≤ b → (b - 0) % 4096 = 0 →
          ¬ (b + (0x2000 / 4096 * 4096 + 4096) < 0x10000 ∧
            ∀ k, k ≤ 0x2000 / 4096 + 1 →
              (fun a => !(a == 0x1000 || a == 0x2000 || a == 0x4000)) (b + k * 4096) = true))) :=
  ⟨⟨by decide, by decide, by decide, by decide⟩, by decide,
    find_hole_characterized (fun a => !(a == 0x1000 || a == 0x2000 || a == 0x4000))
      4096 0 0x10000 0x2000 (by decide) (by decide) (by decide) (by decide)⟩

/-- C7 counterexample: with EVERY page unused in `[0, 2·P)` and requested
size `P` (one page, `ceil(P/P) = 1`), the claim predicts the lowest
one-page hole `some 0`; the source rounds the size to `(P/P)·P + P = 2·P`
and then demands yet another unused page at the return test, so it finds
nothing and returns `none`. -/
theorem find_hole_single_page_cex :
    find_hole (fun _ => true) PAGE_SIZE 0 (2 * PAGE_SIZE) PAGE_SIZE = none ∧
    (fun _ : Nat => true) 0 = true ∧ 0 + PAGE_SIZE ≤ 2 * PAGE_SIZE := by
  exact ⟨by decide, rfl, by decide⟩

end Ockernel
